import Mathlib

/-!
Verification of the DHT11 single-wire driver (src/dht11/src/lib.rs).

The driver is embedded shallowly.  The two hardware capabilities (the
`Dht11Pin` and `Dht11Timing` traits) are modelled by a deterministic
oracle: `isHighAt n` / `isLowAt n` give the answer of the n-th pin level
query, and `timeAt n` gives the timestamp returned by the n-th call of
the clock.  A world state `WState` carries the two query counters and a
chronological trace of all effects performed on the capabilities.  The
Rust `loop` inside `wait_for_level` is embedded with explicit fuel
(`none` = fuel exhausted); `assert!` failures are embedded as `none`
results of the corresponding pure functions.  Machine integers are
modelled as `Nat` (`u8`/`u32` sums are truncated with `% 256` exactly
where the source truncates; the `u128` clock arithmetic cannot wrap for
any value reachable here), and the `f64` conversion arithmetic of
`Dht11Readout::new` is modelled exactly over `ℚ`.
-/

/-- Source constant `DHT11_STARTING_TIME_US`. -/
def DHT11_STARTING_TIME_US : Nat := 20 * 1000

/-- Source constant `DHT11_WAIT_FOR_START_US`. -/
def DHT11_WAIT_FOR_START_US : Nat := 10

/-- Source constant `DHT11_STATE_CHANGE_TIMEOUT_US`. -/
def DHT11_STATE_CHANGE_TIMEOUT_US : Nat := 1000 * 1000

/-- The `Dht11Error` enum of the source. -/
inductive Dht11Error where
  | Timeout
  | ChecksumError
  deriving DecidableEq

/-- One observable effect on the pin or timing capability. -/
inductive Effect where
  | setModeOutput
  | setHigh
  | setLow
  | setModeInput
  | waitUs (us : Nat)
  | pollHigh (r : Bool)
  | pollLow (r : Bool)
  | readTime (t : Nat)
  deriving DecidableEq

/-- Deterministic model of the two capability traits: responses of the
n-th pin level query and of the n-th clock read. -/
structure Dht11Oracle where
  isHighAt : Nat → Bool
  isLowAt : Nat → Bool
  timeAt : Nat → Nat

/-- World state threaded through the driver: pin-query counter,
clock-query counter, and the chronological effect trace. -/
structure WState where
  pinQ : Nat
  timeQ : Nat
  trace : List Effect
  deriving DecidableEq

/-- Effect of `pin.set_mode_output()`. -/
def doSetModeOutput (s : WState) : WState :=
  ⟨s.pinQ, s.timeQ, s.trace ++ [Effect.setModeOutput]⟩

/-- Effect of `pin.set_high()`. -/
def doSetHigh (s : WState) : WState :=
  ⟨s.pinQ, s.timeQ, s.trace ++ [Effect.setHigh]⟩

/-- Effect of `pin.set_low()`. -/
def doSetLow (s : WState) : WState :=
  ⟨s.pinQ, s.timeQ, s.trace ++ [Effect.setLow]⟩

/-- Effect of `pin.set_mode_input()`. -/
def doSetModeInput (s : WState) : WState :=
  ⟨s.pinQ, s.timeQ, s.trace ++ [Effect.setModeInput]⟩

/-- Effect of `timing.wait(us)`. -/
def doWait (us : Nat) (s : WState) : WState :=
  ⟨s.pinQ, s.timeQ, s.trace ++ [Effect.waitUs us]⟩

/-- Effect and result of `pin.is_high()`. -/
def doIsHigh (o : Dht11Oracle) (s : WState) : Bool × WState :=
  (o.isHighAt s.pinQ, ⟨s.pinQ + 1, s.timeQ, s.trace ++ [Effect.pollHigh (o.isHighAt s.pinQ)]⟩)

/-- Effect and result of `pin.is_low()`. -/
def doIsLow (o : Dht11Oracle) (s : WState) : Bool × WState :=
  (o.isLowAt s.pinQ, ⟨s.pinQ + 1, s.timeQ, s.trace ++ [Effect.pollLow (o.isLowAt s.pinQ)]⟩)

/-- Effect and result of `timing.get_time_us()`. -/
def doGetTime (o : Dht11Oracle) (s : WState) : Nat × WState :=
  (o.timeAt s.timeQ, ⟨s.pinQ, s.timeQ + 1, s.trace ++ [Effect.readTime (o.timeAt s.timeQ)]⟩)

/-- The answer the loop body of `wait_for_level` reads from the pin at
pin-query index `i`: `is_high` when waiting for high, `is_low` when
waiting for low. -/
def pollResp (o : Dht11Oracle) (level : Bool) (i : Nat) : Bool :=
  if level then o.isHighAt i else o.isLowAt i

/-- The `loop` body of `wait_for_level`: poll the pin, return `Ok` on the
target level, otherwise read the clock and return `Timeout` once it is
strictly past `timeout`; `none` means the fuel ran out. -/
def wait_for_level_loop (o : Dht11Oracle) (level : Bool) (timeout : Nat) :
    Nat → WState → Option (Except Dht11Error Unit × WState)
  | 0, _ => none
  | fuel + 1, s =>
    let p := if level then doIsHigh o s else doIsLow o s
    if p.1 then some (Except.ok (), p.2)
    else
      let t := doGetTime o p.2
      if t.1 > timeout then some (Except.error Dht11Error.Timeout, t.2)
      else wait_for_level_loop o level timeout fuel t.2

/-- Source `wait_for_level`: compute the deadline from the clock at
entry, then run the polling loop. -/
def wait_for_level (o : Dht11Oracle) (level : Bool) (fuel : Nat) (s : WState) :
    Option (Except Dht11Error Unit × WState) :=
  let t := doGetTime o s
  wait_for_level_loop o level (t.1 + DHT11_STATE_CHANGE_TIMEOUT_US) fuel t.2

/-- Source `bits_to_u8`: `assert!(bits.len() == 8)` (modelled as `none`),
then the chain of conditional additions, most significant bit first,
ending with `|= 1` for the last bit. -/
def bits_to_u8 (bits : List Bool) : Option Nat :=
  if bits.length = 8 then
    let r0 : Nat := 0
    let r1 := if bits.getD 0 false then r0 + 128 else r0
    let r2 := if bits.getD 1 false then r1 + 64 else r1
    let r3 := if bits.getD 2 false then r2 + 32 else r2
    let r4 := if bits.getD 3 false then r3 + 16 else r3
    let r5 := if bits.getD 4 false then r4 + 8 else r4
    let r6 := if bits.getD 5 false then r5 + 4 else r5
    let r7 := if bits.getD 6 false then r6 + 2 else r6
    let r8 := if bits.getD 7 false then r7 ||| 1 else r7
    some r8
  else none

/-- The `Dht11RawData` struct of the source. -/
structure Dht11RawData where
  integral_rh_data : Nat
  decimal_rh_data : Nat
  integral_t_data : Nat
  decimal_t_data : Nat
  checksum : Nat
  deriving DecidableEq

/-- Source `Dht11RawData::new`: `assert!(bits.len() == 40)` (modelled as
`none`), then the five bytes packed from the slices `bits[0..8]`,
`bits[8..16]`, `bits[16..24]`, `bits[24..32]`, `bits[32..40]`. -/
def Dht11RawData.new (bits : List Bool) : Option Dht11RawData :=
  if bits.length = 40 then
    match bits_to_u8 (List.take 8 bits), bits_to_u8 (List.take 8 (List.drop 8 bits)),
        bits_to_u8 (List.take 8 (List.drop 16 bits)), bits_to_u8 (List.take 8 (List.drop 24 bits)),
        bits_to_u8 (List.take 8 (List.drop 32 bits)) with
    | some irh, some drh, some it, some dt, some cs => some ⟨irh, drh, it, dt, cs⟩
    | _, _, _, _, _ => none
  else none

/-- Source `Dht11RawData::is_checksum_correct`: the stored checksum byte
compared with the sum of the four data bytes as wide integers, modulo
256. -/
def Dht11RawData.is_checksum_correct (d : Dht11RawData) : Bool :=
  d.checksum == (d.integral_rh_data + d.decimal_rh_data + d.integral_t_data + d.decimal_t_data) % 256

/-- The `Dht11Readout` struct; the `f64` fields are modelled exactly over
`ℚ`. -/
structure Dht11Readout where
  humidity : ℚ
  temperature : ℚ
  deriving DecidableEq

/-- Source `Dht11Readout::new`: integral part plus decimal part divided
by 10. -/
def Dht11Readout.new (d : Dht11RawData) : Dht11Readout :=
  ⟨(d.integral_rh_data : ℚ) + (d.decimal_rh_data : ℚ) / 10,
   (d.integral_t_data : ℚ) + (d.decimal_t_data : ℚ) / 10⟩

/-- Source `convert_time_to_bit`: `assert!(time < 1000000)` (modelled as
`none`), then the 50 microsecond threshold compare. -/
def convert_time_to_bit (time : Nat) : Option Bool :=
  if time < 1000000 then (if time < 50 then some false else some true) else none

/-- The `?` operator on `Result` values paired with the world state:
propagate `none` (fuel exhaustion) and errors, continue on success. -/
def resBind {α β : Type} (x : Option (Except Dht11Error α × WState))
    (f : α → WState → Option (Except Dht11Error β × WState)) :
    Option (Except Dht11Error β × WState) :=
  match x with
  | none => none
  | some (Except.error e, s') => some (Except.error e, s')
  | some (Except.ok a, s') => f a s'

/-- The first seven statements of `dht11_init_readout`: output mode,
drive high, drive low, wait 20,000 microseconds, drive high, wait 10
microseconds, input mode. -/
def handshakeStart (s : WState) : WState :=
  doSetModeInput (doWait DHT11_WAIT_FOR_START_US (doSetHigh
    (doWait DHT11_STARTING_TIME_US (doSetLow (doSetHigh (doSetModeOutput s))))))

/-- Source `dht11_init_readout`: the seven handshake effects, then the
three level-waits for low, high, low chained with `?`. -/
def dht11_init_readout (o : Dht11Oracle) (fuel : Nat) (s : WState) :
    Option (Except Dht11Error Unit × WState) :=
  resBind (wait_for_level o false fuel (handshakeStart s)) (fun _ s8 =>
    resBind (wait_for_level o true fuel s8) (fun _ s9 =>
      resBind (wait_for_level o false fuel s9) (fun _ s10 =>
        some (Except.ok (), s10))))

/-- Source `dht11_read_bit`: wait for high, read the clock, wait for low,
read the clock again, classify the elapsed high-pulse duration. -/
def dht11_read_bit (o : Dht11Oracle) (fuel : Nat) (s : WState) :
    Option (Except Dht11Error Bool × WState) :=
  resBind (wait_for_level o true fuel s) (fun _ s1 =>
    resBind (wait_for_level o false fuel (doGetTime o s1).2) (fun _ s2 =>
      match convert_time_to_bit ((doGetTime o s2).1 - (doGetTime o s1).1) with
      | none => none
      | some b => some (Except.ok b, (doGetTime o s2).2)))

/-- The `for bit in bits.iter_mut()` loop of `dht11_perform_readout`:
`n` bit reads in temporal order, short-circuiting on the first error. -/
def dht11_read_bits (o : Dht11Oracle) (fuel : Nat) :
    Nat → WState → Option (Except Dht11Error (List Bool) × WState)
  | 0, s => some (Except.ok [], s)
  | n + 1, s =>
    resBind (dht11_read_bit o fuel s) (fun b s1 =>
      resBind (dht11_read_bits o fuel n s1) (fun bs s2 =>
        some (Except.ok (b :: bs), s2)))

/-- Source `dht11_perform_readout`: handshake, forty bit reads, frame
assembly, checksum validation, conversion. -/
def dht11_perform_readout (o : Dht11Oracle) (fuel : Nat) (s : WState) :
    Option (Except Dht11Error Dht11Readout × WState) :=
  resBind (dht11_init_readout o fuel s) (fun _ s1 =>
    resBind (dht11_read_bits o fuel 40 s1) (fun bits s2 =>
      match Dht11RawData.new bits with
      | none => none
      | some raw =>
        if raw.is_checksum_correct = false then some (Except.error Dht11Error.ChecksumError, s2)
        else some (Except.ok (Dht11Readout.new raw), s2)))

/-- Reference most-significant-bit-first packing, written from the spec:
bit index 0 contributes 128, descending to bit index 7 contributing 1. -/
def msbFirstPack (bits : List Bool) : Nat :=
  List.foldl (fun a b => 2 * a + (if b then 1 else 0)) 0 bits

/-- Concrete oracle for witnesses: the pin affirms every level query and
the clock advances by one microsecond per read. -/
def oAllTrue : Dht11Oracle := ⟨fun _ => true, fun _ => true, fun n => n⟩

/-- Concrete oracle for witnesses: the pin affirms every level query and
the clock jumps far beyond the timeout deadline after the entry read. -/
def oBigJump : Dht11Oracle := ⟨fun _ => true, fun _ => true, fun n => 5000000 * n⟩

lemma length_eight_cases (bs : List Bool) (h : bs.length = 8) :
    ∃ a b c d e f g h', bs = [a, b, c, d, e, f, g, h'] := by
  match bs, h with
  | [a, b, c, d, e, f, g, h'], _ => exact ⟨a, b, c, d, e, f, g, h', rfl⟩

/-- C2: for every sequence of exactly 8 booleans, `bits_to_u8` produces
the byte of a reference most-significant-bit-first packing (bit index 0
contributes 128, descending to bit index 7 contributing 1); in
particular `[true,false,true,false,true,false,true,false]` packs to
170. -/
theorem bits_to_u8_is_msb_first_pack :
    (∀ bs : List Bool, bs.length = 8 → bits_to_u8 bs = some (msbFirstPack bs)) ∧
    bits_to_u8 [true, false, true, false, true, false, true, false] = some 170 := by
  refine ⟨?_, by decide⟩
  intro bs h
  obtain ⟨a, b, c, d, e, f, g, h', rfl⟩ := length_eight_cases bs h
  revert a b c d e f g h'
  decide

/-- C2 witness: the general packing statement applied to a concrete
8-bit sequence. -/
theorem bits_to_u8_is_msb_first_pack_witness :
    bits_to_u8 [true, true, false, false, false, false, false, true] =
      some (msbFirstPack [true, true, false, false, false, false, false, true]) :=
  bits_to_u8_is_msb_first_pack.1 [true, true, false, false, false, false, false, true] (by decide)

/-- C3: checksum validation passes iff the checksum byte equals the sum
of the four data bytes modulo 256; data bytes (48,0,23,8) with checksum
79 pass, and the same data bytes with any other byte fail. -/
theorem is_checksum_correct_iff :
    (∀ d : Dht11RawData, d.is_checksum_correct = true ↔
      d.checksum =
        (d.integral_rh_data + d.decimal_rh_data + d.integral_t_data + d.decimal_t_data) % 256) ∧
    Dht11RawData.is_checksum_correct ⟨48, 0, 23, 8, 79⟩ = true ∧
    (∀ c : Nat, c < 256 → c ≠ 79 → Dht11RawData.is_checksum_correct ⟨48, 0, 23, 8, c⟩ = false) := by
  refine ⟨?_, by decide, ?_⟩
  · intro d
    simp [Dht11RawData.is_checksum_correct]
  · intro c _ hne
    simp only [Dht11RawData.is_checksum_correct]
    simpa using hne

/-- C3 witness: the rejection statement applied to a concrete wrong
checksum byte. -/
theorem is_checksum_correct_iff_witness :
    Dht11RawData.is_checksum_correct ⟨48, 0, 23, 8, 80⟩ = false :=
  is_checksum_correct_iff.2.2 80 (by decide) (by decide)

/-- C4: for every elapsed duration below 1,000,000 microseconds the bit
classifier returns 0 below 50 microseconds and 1 at or above 50; in
particular 50 classifies as 1 and 49 as 0. -/
theorem convert_time_to_bit_threshold :
    (∀ t : Nat, t < 1000000 →
      (t < 50 → convert_time_to_bit t = some false) ∧
      (50 ≤ t → convert_time_to_bit t = some true)) ∧
    convert_time_to_bit 50 = some true ∧ convert_time_to_bit 49 = some false := by
  refine ⟨?_, by decide, by decide⟩
  intro t ht
  constructor
  · intro h50
    simp [convert_time_to_bit, ht, h50]
  · intro h50
    simp [convert_time_to_bit, ht, Nat.not_lt.mpr h50]

/-- C4 witness: the threshold statement applied at the two boundary
inputs. -/
theorem convert_time_to_bit_threshold_witness :
    convert_time_to_bit 50 = some true ∧ convert_time_to_bit 49 = some false :=
  ⟨(convert_time_to_bit_threshold.1 50 (by decide)).2 (by decide),
   (convert_time_to_bit_threshold.1 49 (by decide)).1 (by decide)⟩

/-- C5 counterexample: at an elapsed duration of exactly 1,000,000
microseconds the classifier does not return the threshold compare value
`some true`; the `assert!(time < 1000000)` fires instead (modelled as
`none`). -/
theorem convert_time_to_bit_large_counterexample :
    convert_time_to_bit 1000000 ≠ some true ∧ convert_time_to_bit 1000000 = none := by
  constructor
  · intro h
    simp [convert_time_to_bit] at h
  · simp [convert_time_to_bit]

/-- C5 amended: below 1,000,000 microseconds the classifier is exactly
the 50 microsecond threshold compare with no other special-casing, but
at or above 1,000,000 microseconds the assertion fires and no bit value
is returned. -/
theorem convert_time_to_bit_total_behavior :
    ∀ t : Nat,
      (t < 1000000 → convert_time_to_bit t = some (decide (50 ≤ t))) ∧
      (1000000 ≤ t → convert_time_to_bit t = none) := by
  intro t
  constructor
  · intro ht
    by_cases h50 : t < 50
    · simp [convert_time_to_bit, ht, h50, Nat.not_le.mpr h50]
    · simp [convert_time_to_bit, ht, h50, Nat.le_of_not_lt h50]
  · intro ht
    simp [convert_time_to_bit, Nat.not_lt.mpr ht]

/-- C5 amended witness: the amended statement applied on both sides of
the assertion boundary. -/
theorem convert_time_to_bit_total_behavior_witness :
    convert_time_to_bit 1000000 = none ∧ convert_time_to_bit 60 = some (decide (50 ≤ 60)) :=
  ⟨(convert_time_to_bit_total_behavior 1000000).2 (by decide),
   (convert_time_to_bit_total_behavior 60).1 (by decide)⟩

lemma resBind_none {α β : Type} (f : α → WState → Option (Except Dht11Error β × WState)) :
    resBind none f = none := rfl

lemma resBind_error {α β : Type} (e : Dht11Error) (s' : WState)
    (f : α → WState → Option (Except Dht11Error β × WState)) :
    resBind (some (Except.error e, s')) f = some (Except.error e, s') := rfl

lemma resBind_ok {α β : Type} (a : α) (s' : WState)
    (f : α → WState → Option (Except Dht11Error β × WState)) :
    resBind (some (Except.ok a, s')) f = f a s' := rfl

lemma resBind_some_inv {α β : Type} {x : Option (Except Dht11Error α × WState)}
    {f : α → WState → Option (Except Dht11Error β × WState)}
    {res : Except Dht11Error β} {s' : WState}
    (h : resBind x f = some (res, s')) :
    (∃ e, x = some (Except.error e, s') ∧ res = Except.error e) ∨
    (∃ a s1, x = some (Except.ok a, s1) ∧ f a s1 = some (res, s')) := by
  cases x with
  | none => simp [resBind] at h
  | some p =>
    obtain ⟨r, st⟩ := p
    cases r with
    | error e =>
      simp only [resBind] at h
      obtain ⟨h1, h2⟩ := Prod.mk.injEq .. ▸ Option.some.inj h
      exact Or.inl ⟨e, by rw [h2], h1.symm⟩
    | ok a =>
      exact Or.inr ⟨a, st, rfl, h⟩

lemma wait_for_level_loop_res (o : Dht11Oracle) (level : Bool) (timeout : Nat) :
    ∀ fuel s res s', wait_for_level_loop o level timeout fuel s = some (res, s') →
      res = Except.ok () ∨ res = Except.error Dht11Error.Timeout := by
  intro fuel
  induction fuel with
  | zero => intro s res s' h; simp [wait_for_level_loop] at h
  | succ f ih =>
    intro s res s' h
    rw [wait_for_level_loop] at h
    by_cases hp : (if level then doIsHigh o s else doIsLow o s).1 = true
    · rw [if_pos hp] at h
      obtain ⟨h1, _⟩ := Prod.mk.injEq .. ▸ Option.some.inj h
      exact Or.inl h1.symm
    · rw [if_neg hp] at h
      by_cases ht : (doGetTime o (if level then doIsHigh o s else doIsLow o s).2).1 > timeout
      · rw [if_pos ht] at h
        obtain ⟨h1, _⟩ := Prod.mk.injEq .. ▸ Option.some.inj h
        exact Or.inr h1.symm
      · rw [if_neg ht] at h
        exact ih _ res s' h

lemma wait_for_level_res (o : Dht11Oracle) (level : Bool) (fuel : Nat) (s : WState)
    (res : Except Dht11Error Unit) (s' : WState)
    (h : wait_for_level o level fuel s = some (res, s')) :
    res = Except.ok () ∨ res = Except.error Dht11Error.Timeout :=
  wait_for_level_loop_res o level _ fuel _ res s' h

lemma dht11_read_bit_res (o : Dht11Oracle) (fuel : Nat) (s : WState)
    (res : Except Dht11Error Bool) (s' : WState)
    (h : dht11_read_bit o fuel s = some (res, s')) :
    (∃ b, res = Except.ok b) ∨ res = Except.error Dht11Error.Timeout := by
  rcases resBind_some_inv h with ⟨e, he, hres⟩ | ⟨a, s1, ha, hrest⟩
  · rcases wait_for_level_res o true fuel s _ _ he with h1 | h1
    · simp at h1
    · exact Or.inr (by rw [hres, Except.error.inj h1])
  · rcases resBind_some_inv hrest with ⟨e, he, hres⟩ | ⟨a2, s2, ha2, hrest2⟩
    · rcases wait_for_level_res o false fuel _ _ _ he with h1 | h1
      · simp at h1
      · exact Or.inr (by rw [hres, Except.error.inj h1])
    · cases hc : convert_time_to_bit ((doGetTime o s2).1 - (doGetTime o s1).1) with
      | none => rw [hc] at hrest2; simp at hrest2
      | some b =>
        rw [hc] at hrest2
        obtain ⟨h1, _⟩ := Prod.mk.injEq .. ▸ Option.some.inj hrest2
        exact Or.inl ⟨b, h1.symm⟩

lemma dht11_read_bits_res (o : Dht11Oracle) (fuel : Nat) :
    ∀ n s res s', dht11_read_bits o fuel n s = some (res, s') →
      (∃ bs, res = Except.ok bs) ∨ res = Except.error Dht11Error.Timeout := by
  intro n
  induction n with
  | zero =>
    intro s res s' h
    rw [dht11_read_bits] at h
    obtain ⟨h1, _⟩ := Prod.mk.injEq .. ▸ Option.some.inj h
    exact Or.inl ⟨[], h1.symm⟩
  | succ m ih =>
    intro s res s' h
    rw [dht11_read_bits] at h
    rcases resBind_some_inv h with ⟨e, he, hres⟩ | ⟨b, s1, hb, hrest⟩
    · rcases dht11_read_bit_res o fuel s _ _ he with ⟨b, hb⟩ | h1
      · simp at hb
      · exact Or.inr (by rw [hres, Except.error.inj h1])
    · rcases resBind_some_inv hrest with ⟨e, he, hres⟩ | ⟨bs, s2, hbs, hrest2⟩
      · rcases ih s1 _ _ he with ⟨bs, hbs⟩ | h1
        · simp at hbs
        · exact Or.inr (by rw [hres, Except.error.inj h1])
      · obtain ⟨h1, _⟩ := Prod.mk.injEq .. ▸ Option.some.inj hrest2
        exact Or.inl ⟨b :: bs, h1.symm⟩

lemma dht11_read_bits_length (o : Dht11Oracle) (fuel : Nat) :
    ∀ n s bits s', dht11_read_bits o fuel n s = some (Except.ok bits, s') →
      bits.length = n := by
  intro n
  induction n with
  | zero =>
    intro s bits s' h
    rw [dht11_read_bits] at h
    obtain ⟨h1, _⟩ := Prod.mk.injEq .. ▸ Option.some.inj h
    rw [← Except.ok.inj h1]
    rfl
  | succ m ih =>
    intro s bits s' h
    rw [dht11_read_bits] at h
    rcases resBind_some_inv h with ⟨e, _, hres⟩ | ⟨b, s1, hb, hrest⟩
    · simp at hres
    · rcases resBind_some_inv hrest with ⟨e, _, hres⟩ | ⟨bs, s2, hbs, hrest2⟩
      · simp at hres
      · obtain ⟨h1, _⟩ := Prod.mk.injEq .. ▸ Option.some.inj hrest2
        rw [← Except.ok.inj h1]
        simp [ih s1 bs s2 hbs]

lemma dht11_init_readout_res (o : Dht11Oracle) (fuel : Nat) (s : WState)
    (res : Except Dht11Error Unit) (s' : WState)
    (h : dht11_init_readout o fuel s = some (res, s')) :
    res = Except.ok () ∨ res = Except.error Dht11Error.Timeout := by
  rcases resBind_some_inv h with ⟨e, he, hres⟩ | ⟨a, s1, ha, hrest⟩
  · rcases wait_for_level_res o false fuel _ _ _ he with h1 | h1
    · simp at h1
    · exact Or.inr (by rw [hres, Except.error.inj h1])
  · rcases resBind_some_inv hrest with ⟨e, he, hres⟩ | ⟨a2, s2, ha2, hrest2⟩
    · rcases wait_for_level_res o true fuel _ _ _ he with h1 | h1
      · simp at h1
      · exact Or.inr (by rw [hres, Except.error.inj h1])
    · rcases resBind_some_inv hrest2 with ⟨e, he, hres⟩ | ⟨a3, s3, ha3, hrest3⟩
      · rcases wait_for_level_res o false fuel _ _ _ he with h1 | h1
        · simp at h1
        · exact Or.inr (by rw [hres, Except.error.inj h1])
      · obtain ⟨h1, _⟩ := Prod.mk.injEq .. ▸ Option.some.inj hrest3
        exact Or.inl h1.symm

lemma bits_to_u8_isSome (bs : List Bool) (h : bs.length = 8) :
    (bits_to_u8 bs).isSome := by
  simp [bits_to_u8, h]

lemma Dht11RawData.new_isSome (bits : List Bool) (h : bits.length = 40) :
    (Dht11RawData.new bits).isSome := by
  have l0 : (List.take 8 bits).length = 8 := by simp [h]
  have l1 : (List.take 8 (List.drop 8 bits)).length = 8 := by simp [h]
  have l2 : (List.take 8 (List.drop 16 bits)).length = 8 := by simp [h]
  have l3 : (List.take 8 (List.drop 24 bits)).length = 8 := by simp [h]
  have l4 : (List.take 8 (List.drop 32 bits)).length = 8 := by simp [h]
  obtain ⟨b0, h0⟩ := Option.isSome_iff_exists.mp (bits_to_u8_isSome _ l0)
  obtain ⟨b1, h1⟩ := Option.isSome_iff_exists.mp (bits_to_u8_isSome _ l1)
  obtain ⟨b2, h2⟩ := Option.isSome_iff_exists.mp (bits_to_u8_isSome _ l2)
  obtain ⟨b3, h3⟩ := Option.isSome_iff_exists.mp (bits_to_u8_isSome _ l3)
  obtain ⟨b4, h4⟩ := Option.isSome_iff_exists.mp (bits_to_u8_isSome _ l4)
  simp [Dht11RawData.new, h, h0, h1, h2, h3, h4]

/-- C9: the slice-length assertions never fire inside
`dht11_perform_readout`: every 40-bit list makes all five 8-bit slices
have length exactly 8 and makes both `bits_to_u8` and
`Dht11RawData::new` succeed, and the bit list produced by the sampling
loop always has length exactly 40. -/
theorem dht11_asserts_unreachable :
    (∀ bs : List Bool, bs.length = 8 → (bits_to_u8 bs).isSome) ∧
    (∀ bits : List Bool, bits.length = 40 →
      (List.take 8 bits).length = 8 ∧ (List.take 8 (List.drop 8 bits)).length = 8 ∧
      (List.take 8 (List.drop 16 bits)).length = 8 ∧ (List.take 8 (List.drop 24 bits)).length = 8 ∧
      (List.take 8 (List.drop 32 bits)).length = 8 ∧ (Dht11RawData.new bits).isSome) ∧
    (∀ o fuel s bits s', dht11_read_bits o fuel 40 s = some (Except.ok bits, s') →
      bits.length = 40 ∧ (Dht11RawData.new bits).isSome) := by
  refine ⟨bits_to_u8_isSome, ?_, ?_⟩
  · intro bits h
    exact ⟨by simp [h], by simp [h], by simp [h], by simp [h], by simp [h],
      Dht11RawData.new_isSome bits h⟩
  · intro o fuel s bits s' h
    have hl := dht11_read_bits_length o fuel 40 s bits s' h
    exact ⟨hl, Dht11RawData.new_isSome bits hl⟩

/-- C9 witness: the assertion-freedom statement applied to a concrete
40-bit list. -/
theorem dht11_asserts_unreachable_witness :
    (Dht11RawData.new (List.replicate 40 false)).isSome :=
  (dht11_asserts_unreachable.2.1 (List.replicate 40 false) (by decide)).2.2.2.2.2

lemma wait_for_level_loop_succ (o : Dht11Oracle) (level : Bool) (timeout f : Nat) (s : WState) :
    wait_for_level_loop o level timeout (f + 1) s =
      (if pollResp o level s.pinQ
       then some (Except.ok (), (if level then doIsHigh o s else doIsLow o s).2)
       else if timeout < o.timeAt s.timeQ
       then some (Except.error Dht11Error.Timeout,
         (doGetTime o (if level then doIsHigh o s else doIsLow o s).2).2)
       else wait_for_level_loop o level timeout f
         (doGetTime o (if level then doIsHigh o s else doIsLow o s).2).2) := by
  cases level <;> rfl

lemma pollTime_state_pinQ (o : Dht11Oracle) (level : Bool) (s : WState) :
    (doGetTime o (if level then doIsHigh o s else doIsLow o s).2).2.pinQ = s.pinQ + 1 := by
  cases level <;> rfl

lemma pollTime_state_timeQ (o : Dht11Oracle) (level : Bool) (s : WState) :
    (doGetTime o (if level then doIsHigh o s else doIsLow o s).2).2.timeQ = s.timeQ + 1 := by
  cases level <;> rfl

lemma strictMono_le_add {f : Nat → Nat} (hf : StrictMono f) (a : Nat) :
    ∀ n, f a + n ≤ f (a + n) := by
  intro n
  induction n with
  | zero => simp
  | succ m ih =>
    have h1 : f (a + m) < f (a + m + 1) := hf (Nat.lt_succ_self _)
    show f a + (m + 1) ≤ f (a + m + 1)
    omega

lemma wait_for_level_loop_spec (o : Dht11Oracle) (level : Bool) (timeout : Nat) :
    ∀ fuel s, (∃ k, k < fuel ∧ timeout < o.timeAt (s.timeQ + k)) →
    ∃ n res s', wait_for_level_loop o level timeout fuel s = some (res, s') ∧
      (∀ m, m < n → pollResp o level (s.pinQ + m) = false ∧ o.timeAt (s.timeQ + m) ≤ timeout) ∧
      ((res = Except.ok () ∧ pollResp o level (s.pinQ + n) = true) ∨
       (res = Except.error Dht11Error.Timeout ∧ pollResp o level (s.pinQ + n) = false ∧
        timeout < o.timeAt (s.timeQ + n))) := by
  intro fuel
  induction fuel with
  | zero =>
    intro s hex
    obtain ⟨k, hk, _⟩ := hex
    exact absurd hk (Nat.not_lt_zero k)
  | succ f ih =>
    intro s hex
    rw [wait_for_level_loop_succ]
    by_cases hp : pollResp o level s.pinQ = true
    · rw [if_pos hp]
      exact ⟨0, Except.ok (), _, rfl, fun m hm => absurd hm (Nat.not_lt_zero m),
        Or.inl ⟨rfl, hp⟩⟩
    · have hp' : pollResp o level s.pinQ = false := by
        simpa using hp
      rw [if_neg hp]
      by_cases ht : timeout < o.timeAt s.timeQ
      · rw [if_pos ht]
        exact ⟨0, Except.error Dht11Error.Timeout, _, rfl,
          fun m hm => absurd hm (Nat.not_lt_zero m), Or.inr ⟨rfl, hp', ht⟩⟩
      · rw [if_neg ht]
        obtain ⟨k, hk, hkt⟩ := hex
        have hk0 : k ≠ 0 := by
          intro h0
          rw [h0] at hkt
          exact ht hkt
        obtain ⟨k', rfl⟩ := Nat.exists_eq_succ_of_ne_zero hk0
        have hex' : ∃ k2, k2 < f ∧ timeout <
            o.timeAt ((doGetTime o (if level then doIsHigh o s else doIsLow o s).2).2.timeQ + k2) := by
          refine ⟨k', by omega, ?_⟩
          rw [pollTime_state_timeQ]
          have e : s.timeQ + 1 + k' = s.timeQ + (k' + 1) := by omega
          rw [e]
          exact hkt
        obtain ⟨n, res, s', hloop, hpre, hcase⟩ := ih _ hex'
        rw [pollTime_state_pinQ, pollTime_state_timeQ] at hpre hcase
        refine ⟨n + 1, res, s', hloop, ?_, ?_⟩
        · intro m hm
          cases m with
          | zero => exact ⟨hp', Nat.le_of_not_lt ht⟩
          | succ m' =>
            have hm' : m' < n := by omega
            obtain ⟨hc1, hc2⟩ := hpre m' hm'
            constructor
            · have e : s.pinQ + (m' + 1) = s.pinQ + 1 + m' := by omega
              rw [e]
              exact hc1
            · have e : s.timeQ + (m' + 1) = s.timeQ + 1 + m' := by omega
              rw [e]
              exact hc2
        · have e1 : s.pinQ + (n + 1) = s.pinQ + 1 + n := by omega
          have e2 : s.timeQ + (n + 1) = s.timeQ + 1 + n := by omega
          rw [e1, e2]
          exact hcase

/-- C6: with a strictly increasing time source the level-wait always
terminates within the fuel bound; it returns `Ok` at the first poll
reporting the target level, and otherwise returns `Timeout` exactly at
the first clock read strictly past the entry time plus 1,000,000
microseconds (every earlier clock read is at or below the deadline, so
the timeout fires neither before the deadline nor more than one polling
granularity after it). -/
theorem wait_for_level_terminates (o : Dht11Oracle) (hmono : StrictMono o.timeAt)
    (level : Bool) (fuel : Nat) (s : WState)
    (hfuel : DHT11_STATE_CHANGE_TIMEOUT_US + 1 ≤ fuel) :
    ∃ n res s', wait_for_level o level fuel s = some (res, s') ∧
      (∀ m, m < n → pollResp o level (s.pinQ + m) = false ∧
        o.timeAt (s.timeQ + 1 + m) ≤ o.timeAt s.timeQ + DHT11_STATE_CHANGE_TIMEOUT_US) ∧
      ((res = Except.ok () ∧ pollResp o level (s.pinQ + n) = true) ∨
       (res = Except.error Dht11Error.Timeout ∧ pollResp o level (s.pinQ + n) = false ∧
        o.timeAt s.timeQ + DHT11_STATE_CHANGE_TIMEOUT_US < o.timeAt (s.timeQ + 1 + n))) := by
  have hex : ∃ k, k < fuel ∧ o.timeAt s.timeQ + DHT11_STATE_CHANGE_TIMEOUT_US <
      o.timeAt ((doGetTime o s).2.timeQ + k) := by
    refine ⟨DHT11_STATE_CHANGE_TIMEOUT_US, by omega, ?_⟩
    have h1 : o.timeAt s.timeQ + (1 + DHT11_STATE_CHANGE_TIMEOUT_US) ≤
        o.timeAt (s.timeQ + (1 + DHT11_STATE_CHANGE_TIMEOUT_US)) :=
      strictMono_le_add hmono _ _
    have e : (doGetTime o s).2.timeQ + DHT11_STATE_CHANGE_TIMEOUT_US =
        s.timeQ + (1 + DHT11_STATE_CHANGE_TIMEOUT_US) := by
      show s.timeQ + 1 + DHT11_STATE_CHANGE_TIMEOUT_US = _
      omega
    rw [e]
    omega
  obtain ⟨n, res, s', hloop, hpre, hcase⟩ :=
    wait_for_level_loop_spec o level (o.timeAt s.timeQ + DHT11_STATE_CHANGE_TIMEOUT_US)
      fuel ((doGetTime o s).2) hex
  exact ⟨n, res, s', hloop, hpre, hcase⟩

/-- C6 witness: the termination statement applied to a concrete oracle
whose clock advances one microsecond per read. -/
theorem wait_for_level_terminates_witness :
    ∃ n res s', wait_for_level oAllTrue true 1000001 ⟨0, 0, []⟩ = some (res, s') ∧
      (∀ m, m < n → pollResp oAllTrue true (0 + m) = false ∧
        oAllTrue.timeAt (0 + 1 + m) ≤ oAllTrue.timeAt 0 + DHT11_STATE_CHANGE_TIMEOUT_US) ∧
      ((res = Except.ok () ∧ pollResp oAllTrue true (0 + n) = true) ∨
       (res = Except.error Dht11Error.Timeout ∧ pollResp oAllTrue true (0 + n) = false ∧
        oAllTrue.timeAt 0 + DHT11_STATE_CHANGE_TIMEOUT_US < oAllTrue.timeAt (0 + 1 + n))) :=
  wait_for_level_terminates oAllTrue (fun _ _ h => h) true 1000001 ⟨0, 0, []⟩ (by decide)

lemma wait_for_level_loop_timeout (o : Dht11Oracle) (level : Bool) (timeout : Nat) :
    ∀ fuel s s', wait_for_level_loop o level timeout fuel s =
        some (Except.error Dht11Error.Timeout, s') →
      ∃ n, pollResp o level (s.pinQ + n) = false ∧ timeout < o.timeAt (s.timeQ + n) := by
  intro fuel
  induction fuel with
  | zero =>
    intro s s' h
    rw [wait_for_level_loop] at h
    exact absurd h (by simp)
  | succ f ih =>
    intro s s' h
    rw [wait_for_level_loop_succ] at h
    by_cases hp : pollResp o level s.pinQ = true
    · rw [if_pos hp] at h
      simp at h
    · have hp' : pollResp o level s.pinQ = false := by simpa using hp
      rw [if_neg hp] at h
      by_cases ht : timeout < o.timeAt s.timeQ
      · exact ⟨0, hp', ht⟩
      · rw [if_neg ht] at h
        obtain ⟨n, h1, h2⟩ := ih _ s' h
        rw [pollTime_state_pinQ] at h1
        rw [pollTime_state_timeQ] at h2
        refine ⟨n + 1, ?_, ?_⟩
        · have e : s.pinQ + (n + 1) = s.pinQ + 1 + n := by omega
          rw [e]
          exact h1
        · have e : s.timeQ + (n + 1) = s.timeQ + 1 + n := by omega
          rw [e]
          exact h2

/-- C10: the level-wait polls the pin at least once and checks the level
before the deadline check: when the very first poll reports the target
level it returns `Ok` after exactly one clock read and one poll, for any
clock values whatsoever; and a `Timeout` result can only arise from an
iteration whose poll observed the level absent and whose clock read was
strictly greater than the entry timestamp plus 1,000,000
microseconds. -/
theorem wait_for_level_polls_before_deadline (o : Dht11Oracle) (level : Bool) (fuel : Nat)
    (s : WState) (hfuel : 1 ≤ fuel) :
    (pollResp o level s.pinQ = true →
      wait_for_level o level fuel s = some (Except.ok (),
        ⟨s.pinQ + 1, s.timeQ + 1, s.trace ++ [Effect.readTime (o.timeAt s.timeQ),
          if level then Effect.pollHigh true else Effect.pollLow true]⟩)) ∧
    (∀ s', wait_for_level o level fuel s = some (Except.error Dht11Error.Timeout, s') →
      ∃ n, pollResp o level (s.pinQ + n) = false ∧
        o.timeAt s.timeQ + DHT11_STATE_CHANGE_TIMEOUT_US < o.timeAt (s.timeQ + 1 + n)) := by
  constructor
  · intro hp
    cases fuel with
    | zero => exact absurd hfuel (by omega)
    | succ f =>
      cases level with
      | false =>
        have hp' : o.isLowAt s.pinQ = true := by simpa [pollResp] using hp
        show wait_for_level_loop o false ((doGetTime o s).1 + DHT11_STATE_CHANGE_TIMEOUT_US)
          (f + 1) (doGetTime o s).2 = _
        rw [wait_for_level_loop_succ]
        simp [doGetTime, doIsLow, pollResp, hp']
      | true =>
        have hp' : o.isHighAt s.pinQ = true := by simpa [pollResp] using hp
        show wait_for_level_loop o true ((doGetTime o s).1 + DHT11_STATE_CHANGE_TIMEOUT_US)
          (f + 1) (doGetTime o s).2 = _
        rw [wait_for_level_loop_succ]
        simp [doGetTime, doIsHigh, pollResp, hp']
  · intro s' h
    have h' : wait_for_level_loop o level (o.timeAt s.timeQ + DHT11_STATE_CHANGE_TIMEOUT_US)
        fuel (doGetTime o s).2 = some (Except.error Dht11Error.Timeout, s') := h
    obtain ⟨n, h1, h2⟩ := wait_for_level_loop_timeout o level _ fuel _ s' h'
    exact ⟨n, h1, h2⟩

/-- C10 witness: the first-poll statement applied to an oracle whose
clock jumps far past the deadline right after the entry read: the wait
still returns `Ok` from the first successful poll. -/
theorem wait_for_level_polls_before_deadline_witness :
    wait_for_level oBigJump true 1 ⟨0, 0, []⟩ =
      some (Except.ok (), ⟨1, 1, [Effect.readTime 0, Effect.pollHigh true]⟩) :=
  (wait_for_level_polls_before_deadline oBigJump true 1 ⟨0, 0, []⟩ (by decide)).1 rfl

/-- C7: the handshake sequencer performs exactly the ordered effect
sequence output mode, drive high, drive low, wait 20,000 microseconds,
drive high, wait 10 microseconds, input mode, followed by the three
level-waits for low, high, low in that order; and it returns `Ok`
exactly when all three level-waits succeed. -/
theorem dht11_init_readout_sequence (o : Dht11Oracle) (fuel : Nat) (s : WState) :
    (handshakeStart s).pinQ = s.pinQ ∧ (handshakeStart s).timeQ = s.timeQ ∧
    (handshakeStart s).trace = s.trace ++ [Effect.setModeOutput, Effect.setHigh, Effect.setLow,
      Effect.waitUs DHT11_STARTING_TIME_US, Effect.setHigh,
      Effect.waitUs DHT11_WAIT_FOR_START_US, Effect.setModeInput] ∧
    dht11_init_readout o fuel s =
      resBind (wait_for_level o false fuel (handshakeStart s)) (fun _ s8 =>
        resBind (wait_for_level o true fuel s8) (fun _ s9 =>
          resBind (wait_for_level o false fuel s9) (fun _ s10 =>
            some (Except.ok (), s10)))) ∧
    (∀ res s', dht11_init_readout o fuel s = some (res, s') →
      (res = Except.ok () ↔ ∃ s8 s9,
        wait_for_level o false fuel (handshakeStart s) = some (Except.ok (), s8) ∧
        wait_for_level o true fuel s8 = some (Except.ok (), s9) ∧
        wait_for_level o false fuel s9 = some (Except.ok (), s'))) := by
  refine ⟨rfl, rfl, ?_, rfl, ?_⟩
  · simp [handshakeStart, doSetModeOutput, doSetHigh, doSetLow, doWait, doSetModeInput]
  · intro res s' h
    rcases resBind_some_inv h with ⟨e, he, hres⟩ | ⟨a, s8, h8, hrest⟩
    · constructor
      · intro hok
        rw [hok] at hres
        exact absurd hres (by simp)
      · rintro ⟨s8, s9, hw8, hw9, hw10⟩
        rw [he] at hw8
        exact absurd hw8 (by simp)
    · rcases resBind_some_inv hrest with ⟨e, he, hres⟩ | ⟨a2, s9, h9, hrest2⟩
      · constructor
        · intro hok
          rw [hok] at hres
          exact absurd hres (by simp)
        · rintro ⟨s8x, s9x, hw8, hw9, hw10⟩
          rw [h8] at hw8
          obtain ⟨h1, h2⟩ := Prod.mk.injEq .. ▸ Option.some.inj hw8
          rw [← h2] at hw9
          rw [he] at hw9
          exact absurd hw9 (by simp)
      · rcases resBind_some_inv hrest2 with ⟨e, he, hres⟩ | ⟨a3, s10, h10, hrest3⟩
        · constructor
          · intro hok
            rw [hok] at hres
            exact absurd hres (by simp)
          · rintro ⟨s8x, s9x, hw8, hw9, hw10⟩
            rw [h8] at hw8
            obtain ⟨h1, h2⟩ := Prod.mk.injEq .. ▸ Option.some.inj hw8
            rw [← h2] at hw9
            rw [h9] at hw9
            obtain ⟨h3, h4⟩ := Prod.mk.injEq .. ▸ Option.some.inj hw9
            rw [← h4] at hw10
            rw [he] at hw10
            exact absurd hw10 (by simp)
        · obtain ⟨h1, h2⟩ := Prod.mk.injEq .. ▸ Option.some.inj hrest3
          constructor
          · intro _
            exact ⟨s8, s9, h8, h9, by rw [← h2]; exact h10⟩
          · intro _
            exact h1.symm

/-- C7 witness: the handshake decomposition applied to a concrete
oracle and start state. -/
theorem dht11_init_readout_sequence_witness :
    (handshakeStart ⟨0, 0, []⟩).pinQ = 0 ∧ (handshakeStart ⟨0, 0, []⟩).timeQ = 0 ∧
    (handshakeStart ⟨0, 0, []⟩).trace = [] ++ [Effect.setModeOutput, Effect.setHigh,
      Effect.setLow, Effect.waitUs DHT11_STARTING_TIME_US, Effect.setHigh,
      Effect.waitUs DHT11_WAIT_FOR_START_US, Effect.setModeInput] ∧
    dht11_init_readout oAllTrue 1 ⟨0, 0, []⟩ =
      resBind (wait_for_level oAllTrue false 1 (handshakeStart ⟨0, 0, []⟩)) (fun _ s8 =>
        resBind (wait_for_level oAllTrue true 1 s8) (fun _ s9 =>
          resBind (wait_for_level oAllTrue false 1 s9) (fun _ s10 =>
            some (Except.ok (), s10)))) ∧
    (∀ res s', dht11_init_readout oAllTrue 1 ⟨0, 0, []⟩ = some (res, s') →
      (res = Except.ok () ↔ ∃ s8 s9,
        wait_for_level oAllTrue false 1 (handshakeStart ⟨0, 0, []⟩) = some (Except.ok (), s8) ∧
        wait_for_level oAllTrue true 1 s8 = some (Except.ok (), s9) ∧
        wait_for_level oAllTrue false 1 s9 = some (Except.ok (), s'))) :=
  dht11_init_readout_sequence oAllTrue 1 ⟨0, 0, []⟩

lemma perform_eq_of_ok (o : Dht11Oracle) (fuel : Nat) (s s1 : WState) (bits : List Bool)
    (s2 : WState) (raw : Dht11RawData)
    (hinit : dht11_init_readout o fuel s = some (Except.ok (), s1))
    (hbits : dht11_read_bits o fuel 40 s1 = some (Except.ok bits, s2))
    (hnew : Dht11RawData.new bits = some raw) :
    dht11_perform_readout o fuel s =
      (if raw.is_checksum_correct then some (Except.ok (Dht11Readout.new raw), s2)
       else some (Except.error Dht11Error.ChecksumError, s2)) := by
  unfold dht11_perform_readout
  simp only [hinit, resBind_ok, hbits, hnew]
  cases hc : raw.is_checksum_correct <;> simp [hc]

/-- C8: `dht11_perform_readout` runs the handshake once, then the bit
sampler exactly forty times, then validation and conversion, returning
the first error and short-circuiting all later stages: a handshake error
is always `Timeout` and is returned as is, a bit-sampling error is
always `Timeout` and is returned as is, a fully sampled frame always has
exactly 40 bits and is decided purely by its checksum with no effects
after sampling, and every completed outcome is a complete `Reading` or
exactly one of the two errors. -/
theorem dht11_perform_readout_stages (o : Dht11Oracle) (fuel : Nat) (s : WState) :
    (∀ e s1, dht11_init_readout o fuel s = some (Except.error e, s1) →
      e = Dht11Error.Timeout ∧ dht11_perform_readout o fuel s = some (Except.error e, s1)) ∧
    (∀ s1 e s2, dht11_init_readout o fuel s = some (Except.ok (), s1) →
      dht11_read_bits o fuel 40 s1 = some (Except.error e, s2) →
      e = Dht11Error.Timeout ∧ dht11_perform_readout o fuel s = some (Except.error e, s2)) ∧
    (∀ s1 bits s2, dht11_init_readout o fuel s = some (Except.ok (), s1) →
      dht11_read_bits o fuel 40 s1 = some (Except.ok bits, s2) →
      bits.length = 40 ∧
      ∃ raw, Dht11RawData.new bits = some raw ∧
        dht11_perform_readout o fuel s =
          (if raw.is_checksum_correct then some (Except.ok (Dht11Readout.new raw), s2)
           else some (Except.error Dht11Error.ChecksumError, s2))) ∧
    (∀ res s', dht11_perform_readout o fuel s = some (res, s') →
      (∃ r, res = Except.ok r) ∨ res = Except.error Dht11Error.Timeout ∨
        res = Except.error Dht11Error.ChecksumError) := by
  refine ⟨?_, ?_, ?_, ?_⟩
  · intro e s1 h
    have he : e = Dht11Error.Timeout := by
      rcases dht11_init_readout_res o fuel s _ _ h with h1 | h1
      · exact absurd h1 (by simp)
      · exact Except.error.inj h1
    refine ⟨he, ?_⟩
    unfold dht11_perform_readout
    rw [h, resBind_error]
  · intro s1 e s2 hinit hbits
    have he : e = Dht11Error.Timeout := by
      rcases dht11_read_bits_res o fuel 40 s1 _ _ hbits with ⟨bs, h1⟩ | h1
      · exact absurd h1 (by simp)
      · exact Except.error.inj h1
    refine ⟨he, ?_⟩
    unfold dht11_perform_readout
    rw [hinit, resBind_ok, hbits, resBind_error]
  · intro s1 bits s2 hinit hbits
    have hlen := dht11_read_bits_length o fuel 40 s1 bits s2 hbits
    obtain ⟨raw, hraw⟩ := Option.isSome_iff_exists.mp (Dht11RawData.new_isSome bits hlen)
    exact ⟨hlen, raw, hraw, perform_eq_of_ok o fuel s s1 bits s2 raw hinit hbits hraw⟩
  · intro res s' h
    rcases resBind_some_inv h with ⟨e, he, hres⟩ | ⟨a, s1, hinit, hrest⟩
    · rcases dht11_init_readout_res o fuel s _ _ he with h1 | h1
      · exact absurd h1 (by simp)
      · exact Or.inr (Or.inl (by rw [hres, Except.error.inj h1]))
    · rcases resBind_some_inv hrest with ⟨e, he, hres⟩ | ⟨bits, s2, hbits, hrest2⟩
      · rcases dht11_read_bits_res o fuel 40 s1 _ _ he with ⟨bs, h1⟩ | h1
        · exact absurd h1 (by simp)
        · exact Or.inr (Or.inl (by rw [hres, Except.error.inj h1]))
      · have hlen := dht11_read_bits_length o fuel 40 s1 bits s2 hbits
        obtain ⟨raw, hraw⟩ := Option.isSome_iff_exists.mp (Dht11RawData.new_isSome bits hlen)
        simp only [hraw] at hrest2
        cases hc : raw.is_checksum_correct with
        | false =>
          simp only [hc] at hrest2
          simp at hrest2
          exact Or.inr (Or.inr hrest2.1.symm)
        | true =>
          simp only [hc] at hrest2
          simp at hrest2
          exact Or.inl ⟨Dht11Readout.new raw, hrest2.1.symm⟩

/-- C8 witness: the outcome trichotomy applied to a concrete oracle,
fuel and start state. -/
theorem dht11_perform_readout_stages_witness :
    ∃ res s', dht11_perform_readout oAllTrue 1 ⟨2, 3, []⟩ = some (res, s') ∧
      ((∃ r, res = Except.ok r) ∨ res = Except.error Dht11Error.Timeout ∨
        res = Except.error Dht11Error.ChecksumError) := by
  refine ⟨_, _, rfl, ?_⟩
  exact (dht11_perform_readout_stages oAllTrue 1 ⟨2, 3, []⟩).2.2.2 _ _ rfl

/-- C1: for every 40-bit sequence delivered by the sampling stage, when
the byte packed from bits 32-39 equals the sum of the four bytes packed
from bits 0-7, 8-15, 16-23 and 24-31 modulo 256, `dht11_perform_readout`
returns a `Reading` with humidity `integral_rh + decimal_rh / 10` and
temperature `integral_t + decimal_t / 10`; when the fifth byte differs
from that computed checksum it returns `ChecksumError` and no
`Reading`. -/
theorem dht11_perform_readout_pipeline (o : Dht11Oracle) (fuel : Nat) (s s1 : WState)
    (bits : List Bool) (s2 : WState) (b0 b1 b2 b3 b4 : Nat)
    (hinit : dht11_init_readout o fuel s = some (Except.ok (), s1))
    (hbits : dht11_read_bits o fuel 40 s1 = some (Except.ok bits, s2))
    (hb0 : bits_to_u8 (List.take 8 bits) = some b0)
    (hb1 : bits_to_u8 (List.take 8 (List.drop 8 bits)) = some b1)
    (hb2 : bits_to_u8 (List.take 8 (List.drop 16 bits)) = some b2)
    (hb3 : bits_to_u8 (List.take 8 (List.drop 24 bits)) = some b3)
    (hb4 : bits_to_u8 (List.take 8 (List.drop 32 bits)) = some b4) :
    (b4 = (b0 + b1 + b2 + b3) % 256 →
      dht11_perform_readout o fuel s =
        some (Except.ok ⟨(b0 : ℚ) + (b1 : ℚ) / 10, (b2 : ℚ) + (b3 : ℚ) / 10⟩, s2)) ∧
    (b4 ≠ (b0 + b1 + b2 + b3) % 256 →
      dht11_perform_readout o fuel s = some (Except.error Dht11Error.ChecksumError, s2)) := by
  have hlen := dht11_read_bits_length o fuel 40 s1 bits s2 hbits
  have hnew : Dht11RawData.new bits = some ⟨b0, b1, b2, b3, b4⟩ := by
    unfold Dht11RawData.new
    rw [if_pos hlen, hb0, hb1, hb2, hb3, hb4]
  have hperf := perform_eq_of_ok o fuel s s1 bits s2 ⟨b0, b1, b2, b3, b4⟩ hinit hbits hnew
  constructor
  · intro hck
    have hcs : (Dht11RawData.mk b0 b1 b2 b3 b4).is_checksum_correct = true := by
      simp [Dht11RawData.is_checksum_correct]
      exact hck
    rw [hperf, if_pos hcs]
    rfl
  · intro hck
    have hcs : (Dht11RawData.mk b0 b1 b2 b3 b4).is_checksum_correct = false := by
      simp [Dht11RawData.is_checksum_correct]
      exact hck
    rw [hperf]
    simp [hcs]

/-- C1 witness: the pipeline property applied to a run with a concrete
oracle that delivers forty zero bits, whose checksum matches, yielding
the reading (0, 0). -/
theorem dht11_perform_readout_pipeline_witness :
    ∃ s1 bits s2,
      dht11_init_readout oAllTrue 1 ⟨0, 0, []⟩ = some (Except.ok (), s1) ∧
      dht11_read_bits oAllTrue 1 40 s1 = some (Except.ok bits, s2) ∧
      bits_to_u8 (List.take 8 bits) = some 0 ∧
      bits_to_u8 (List.take 8 (List.drop 32 bits)) = some 0 ∧
      dht11_perform_readout oAllTrue 1 ⟨0, 0, []⟩ =
        some (Except.ok ⟨((0 : Nat) : ℚ) + ((0 : Nat) : ℚ) / 10,
          ((0 : Nat) : ℚ) + ((0 : Nat) : ℚ) / 10⟩, s2) := by
  refine ⟨_, _, _, rfl, rfl, rfl, rfl, ?_⟩
  exact (dht11_perform_readout_pipeline oAllTrue 1 ⟨0, 0, []⟩ _ _ _ 0 0 0 0 0
    rfl rfl rfl rfl rfl rfl rfl).1 rfl
